import Mathlib

/-!
Verification of the Cue backend's identity-resolution and
memory-consolidation pipeline, shallowly embedded from the Python source
(`backend/app`).  Scores, confidences and the familiarity value are
modelled as rationals; timestamps as naturals.
-/

/-- A person record, as stored in the Neo4j graph store
(`graph_db.py`, `create_person` / `update_person`). -/
structure GPerson where
  id : String
  status : String
  name : Option String
  relation : Option String
  contextual_note : Option String
  confirmed_at : Option Nat
  last_memory_saved : Option Nat
  last_routine_analysis : Option Nat
deriving DecidableEq, Repr

/-- A memory node (`graph_db.create_memory`). -/
structure GMemory where
  id : String
  person_id : String
  summary : String
deriving DecidableEq, Repr

/-- A routine node (`graph_db.create_routine`): carries its own
`person_id` payload besides the HAS_ROUTINE edge. -/
structure GRoutine where
  id : String
  person_id : String
  text : String
  confidence : ℚ
  source : String
deriving DecidableEq, Repr

/-- The graph-store state: nodes plus explicit HAS_MEMORY / HAS_ROUTINE
edges (pairs of person id and owned node id), mirroring Neo4j's
relationship model. -/
structure GraphState where
  persons : List GPerson
  memories : List GMemory
  routines : List GRoutine
  hasMemory : List (String × String)
  hasRoutine : List (String × String)
deriving DecidableEq, Repr

/-- `graph_db.get_person`: `MATCH (p:Person {id: $id}) RETURN p`. -/
def getPerson (g : GraphState) (pid : String) : Option GPerson :=
  g.persons.find? (fun p => p.id = pid)

/-- `update_familiarity` (graph_db.py): the Cypher
`CASE WHEN p.familiarity_score + $inc > 1.0 THEN 1.0
 ELSE p.familiarity_score + $inc END`. -/
def updateFamiliarity (score inc : ℚ) : ℚ :=
  if 1 < score + inc then 1 else score + inc

/-- Repeated application of `update_familiarity` with a fixed increment,
as performed by successive memory saves (`memory.py` calls it with
increment 0.05 on every save). -/
def iterateFamiliarity (inc : ℚ) : Nat → ℚ → ℚ
  | 0, score => score
  | n + 1, score => iterateFamiliarity inc n (updateFamiliarity score inc)

/-- Outcome of one attempt of a graph-store operation: success, a
transient connectivity error (`SessionExpired` / `ServiceUnavailable`,
the two exception classes caught by the retry decorator), or any other
failure, which the decorator does not catch. -/
inductive OpOutcome (α : Type) where
  | ok (v : α)
  | transient (e : Nat)
  | failure (e : Nat)
deriving DecidableEq, Repr

/-- The loop body of `retry_on_connection_error` (graph_db.py):
`for attempt in range(max_retries)` — each attempt (re)connects if
needed and runs the wrapped call, whose outcome on attempt `i` is
`f i`; only transient errors are retried, and on the last attempt the
transient error is re-raised. -/
def retryAttempts (f : Nat → OpOutcome α) (maxRetries : Nat) (attempt : Nat) :
    OpOutcome α :=
  match f attempt with
  | .ok v => .ok v
  | .failure e => .failure e
  | .transient e =>
    if h : attempt + 1 < maxRetries then
      retryAttempts f maxRetries (attempt + 1)
    else
      .transient e
termination_by maxRetries - attempt
decreasing_by omega

/-- The `retry_on_connection_error(max_retries=3)` decorator applied to
an operation whose per-attempt behaviour is `f`. -/
def retryOnConnectionError (maxRetries : Nat) (f : Nat → OpOutcome α) :
    OpOutcome α :=
  retryAttempts f maxRetries 0

/-- `get_person` as wrapped by `@retry_on_connection_error(max_retries=3)`:
`f i` is what the `i`-th attempt of the underlying session call returns. -/
def getPersonWithRetry (f : Nat → OpOutcome (Option GPerson)) :
    OpOutcome (Option GPerson) :=
  retryOnConnectionError 3 f

/-- A scored hit from the vector index's face collection: the payload
stored by `store_face_embedding` (`person_id`, `status`) together with
the nearest-neighbour similarity score returned by the search. -/
structure FaceHit where
  person_id : String
  status : String
  score : ℚ
deriving DecidableEq, Repr

/-- `Settings.FACE_SIMILARITY_THRESHOLD` default (config.py): `0.8`. -/
def FACE_SIMILARITY_THRESHOLD : ℚ := 8 / 10

/-- `vector_db.search_face`: given the raw (score-sorted) search results
for one embedding, keep those with `score >= threshold`, truncate to
`limit`, and reshape payload plus score into match dicts. -/
def searchFace (threshold : ℚ) (allResults : List FaceHit) (lim : Nat) :
    List FaceHit :=
  ((allResults.filter (fun r => threshold ≤ r.score)).take lim).map
    (fun r => { person_id := r.person_id, status := r.status, score := r.score })

/-- One loop iteration's candidate in `recognize_face` (recognize.py):
a frame with no detected face (`embedding is None`) yields no candidate;
otherwise `search_face` is called with `limit = 1` and the first match,
if any, is the frame's candidate. -/
def frameCandidate (threshold : ℚ) (frame : Option (List FaceHit)) :
    Option FaceHit :=
  match frame with
  | none => none
  | some results => (searchFace threshold results 1).head?

/-- The accumulator of `recognize_face`'s frame loop:
`best_match`, `best_confidence` (initial `0.0`), `best_person`. -/
structure RecogAcc where
  best_match : Option FaceHit
  best_confidence : ℚ
  best_person : Option GPerson
deriving DecidableEq, Repr

/-- The body of `recognize_face`'s frame loop: only candidates with
stored status `"confirmed"` are considered; a candidate replaces the
running best exactly when its confidence strictly exceeds
`best_confidence` and its person record resolves in the graph store. -/
def recogStep (g : GraphState) (acc : RecogAcc) (cand : Option FaceHit) :
    RecogAcc :=
  match cand with
  | none => acc
  | some m =>
    if m.status = "confirmed" then
      if acc.best_confidence < m.score then
        match getPerson g m.person_id with
        | some p =>
          { best_match := some m, best_confidence := m.score,
            best_person := some p }
        | none => acc
      else acc
    else acc

/-- `recognize_face` over a batch of frames, each frame given as the
optional raw search-result list for its embedding. -/
def recognizeFace (g : GraphState) (threshold : ℚ)
    (frames : List (Option (List FaceHit))) : RecogAcc :=
  (frames.map (frameCandidate threshold)).foldl (recogStep g)
    { best_match := none, best_confidence := 0, best_person := none }

/-- The response assembled at the end of `recognize_face`: recognized
with the best match's person id and confidence when both `best_match`
and `best_person` are set, otherwise "not recognized". -/
structure RecognizeResponse where
  recognized : Bool
  person_id : String
  confidence : ℚ
deriving DecidableEq, Repr

def recognizeResponse (g : GraphState) (threshold : ℚ)
    (frames : List (Option (List FaceHit))) : RecognizeResponse :=
  let acc := recognizeFace g threshold frames
  match acc.best_match, acc.best_person with
  | some m, some _ =>
    { recognized := true, person_id := m.person_id, confidence := m.score }
  | _, _ => { recognized := false, person_id := "", confidence := 0 }

/-- All per-frame candidates of a batch, in frame order. -/
def frameCandidates (threshold : ℚ)
    (frames : List (Option (List FaceHit))) : List FaceHit :=
  (frames.map (frameCandidate threshold)).filterMap id

/-- The per-frame candidates whose stored status is CONFIRMED. -/
def confirmedCandidates (threshold : ℚ)
    (frames : List (Option (List FaceHit))) : List FaceHit :=
  (frameCandidates threshold frames).filter (fun c => c.status = "confirmed")

/-- Loop invariant of `recognize_face`'s frame loop, over the confirmed
candidates seen so far: either nothing was selected yet and every
confirmed candidate so far scored at most the initial `0.0`, or the
running best is a confirmed candidate with the maximum score so far,
strictly greater than every earlier confirmed candidate's score (ties
keep the first-seen frame) and with a resolved person record. -/
def RecogInv (g : GraphState) (seen : List FaceHit) (acc : RecogAcc) : Prop :=
  (acc.best_match = none →
    acc.best_confidence = 0 ∧ acc.best_person = none ∧
    ∀ c ∈ seen.filter (fun c => c.status = "confirmed"), c.score ≤ 0) ∧
  (∀ m, acc.best_match = some m →
    m.status = "confirmed" ∧ acc.best_confidence = m.score ∧ 0 < m.score ∧
    (∃ p, getPerson g m.person_id = some p ∧ acc.best_person = some p) ∧
    (∀ c ∈ seen.filter (fun c => c.status = "confirmed"), c.score ≤ m.score) ∧
    ∃ l1 l2, seen.filter (fun c => c.status = "confirmed") = l1 ++ m :: l2 ∧
      ∀ c ∈ l1, c.score < m.score)

/-- A point of the face-embeddings collection: payload
`{person_id, status}` (vector abstracted away). -/
structure FacePoint where
  id : String
  person_id : String
  status : String
deriving DecidableEq, Repr

/-- A point of the memory-embeddings collection: payload tagged with
`person_id`. -/
structure MemoryPoint where
  id : String
  person_id : String
deriving DecidableEq, Repr

/-- The Qdrant state: the two collections (vector_db.py). -/
structure VectorState where
  face : List FacePoint
  memory : List MemoryPoint
deriving DecidableEq, Repr

/-- The combined dual-store state used by the lifecycle routes. -/
structure SystemState where
  graph : GraphState
  vector : VectorState
deriving DecidableEq, Repr

/-- Cypher `MATCH (p:Person {id: $id}) SET ...`: apply `f` to the
matching person records. -/
def mapPerson (g : GraphState) (pid : String) (f : GPerson → GPerson) :
    GraphState :=
  { g with persons := g.persons.map (fun p => if p.id = pid then f p else p) }

/-- `graph_db.update_person`: per-field conditional updates, run in
source order (name, relation, contextual_note, status); a status update
also sets `confirmed_at` when the new status is `"confirmed"`. -/
def updatePerson (g : GraphState) (pid : String)
    (name relation status contextualNote : Option String) (now : Nat) :
    GraphState :=
  let g1 := match name with
    | none => g
    | some n => mapPerson g pid (fun p => { p with name := some n })
  let g2 := match relation with
    | none => g1
    | some r => mapPerson g1 pid (fun p => { p with relation := some r })
  let g3 := match contextualNote with
    | none => g2
    | some c => mapPerson g2 pid (fun p => { p with contextual_note := some c })
  match status with
  | none => g3
  | some s => mapPerson g3 pid (fun p =>
      { p with
          status := s
          confirmed_at :=
            if s = "confirmed" then some now else p.confirmed_at })

/-- `vector_db.update_person_status`: set the payload status of every
face point tagged with `person_id`. -/
def updatePersonStatus (v : VectorState) (pid status : String) : VectorState :=
  { v with face := v.face.map (fun fp =>
      if fp.person_id = pid then { fp with status := status } else fp) }

/-- Store writes traced by the confirm flow, in execution order. -/
inductive StoreOp where
  | graphUpdate (pid : String)
  | vectorStatusUpdate (pid status : String)
deriving DecidableEq, Repr

/-- `caregiver.confirm_person`: 404 when the person is absent, 400 when
already confirmed; otherwise the Neo4j `update_person` (name, relation,
status = "confirmed") runs first, then the Qdrant status update. -/
def confirmPerson (st : SystemState) (pid name relation : String)
    (now : Nat) : Except Nat (SystemState × List StoreOp) :=
  match getPerson st.graph pid with
  | none => .error 404
  | some p =>
    if p.status = "confirmed" then .error 400
    else
      .ok ({ graph := updatePerson st.graph pid (some name) (some relation)
               (some "confirmed") none now,
             vector := updatePersonStatus st.vector pid "confirmed" },
           [.graphUpdate pid, .vectorStatusUpdate pid "confirmed"])

/-- `graph_db.delete_person`: `MATCH (p:Person {id: $id}) OPTIONAL MATCH
(p)-[:HAS_MEMORY]->(m:Memory) DETACH DELETE p, m` — removes the person
node, the HAS_MEMORY-matched memory nodes and every edge incident to
the person; Routine nodes are only detached, not deleted. -/
def graphDeletePerson (g : GraphState) (pid : String) : GraphState :=
  let memIds := (g.hasMemory.filter (fun e => e.1 = pid)).map (fun e => e.2)
  { persons := g.persons.filter (fun p => p.id ≠ pid),
    memories := g.memories.filter (fun m => ¬ m.id ∈ memIds),
    routines := g.routines,
    hasMemory := g.hasMemory.filter (fun e => e.1 ≠ pid),
    hasRoutine := g.hasRoutine.filter (fun e => e.1 ≠ pid) }

/-- `vector_db.delete_person_data`: delete by `person_id` filter in both
collections. -/
def deletePersonData (v : VectorState) (pid : String) : VectorState :=
  { face := v.face.filter (fun fp => fp.person_id ≠ pid),
    memory := v.memory.filter (fun mp => mp.person_id ≠ pid) }

/-- The `caregiver.delete_person` route: 404 when the person is absent,
otherwise graph delete followed by vector cleanup. -/
def routerDeletePerson (st : SystemState) (pid : String) :
    Except Nat SystemState :=
  match getPerson st.graph pid with
  | none => .error 404
  | some _ =>
    .ok { graph := graphDeletePerson st.graph pid,
          vector := deletePersonData st.vector pid }

/-- The `count(m)` over `MATCH (p)-[:HAS_MEMORY]->(m)` of the worker
query: the number of HAS_MEMORY edges out of `pid`. -/
def personMemoryCount (g : GraphState) (pid : String) : Nat :=
  (g.hasMemory.filter (fun e => e.1 = pid)).length

/-- The WHERE clause of `get_people_needing_routine_analysis`
(graph_db.py): the MATCH requires at least one memory, the memory count
must be even, and `last_routine_analysis` must be unset or before
`last_memory_saved` (a `<` against an unset `last_memory_saved` is not
satisfied, as in Cypher null comparison). -/
def needsRoutineAnalysis (g : GraphState) (p : GPerson) : Bool :=
  decide (0 < personMemoryCount g p.id) &&
  decide (personMemoryCount g p.id % 2 = 0) &&
  (match p.last_routine_analysis, p.last_memory_saved with
   | none, _ => true
   | some a, some s => decide (a < s)
   | some _, none => false)

/-- `graph_db.get_people_needing_routine_analysis`: filter by the dirty
predicate, `LIMIT 10`. -/
def getPeopleNeedingRoutineAnalysis (g : GraphState) : List GPerson :=
  (g.persons.filter (needsRoutineAnalysis g)).take 10

/-- Candidacy predicate as the claim states it (at least one memory and
the timestamp-dirty condition, with no other restriction) — written
from the spec's words for comparison with the code's predicate. -/
def specDirtyCandidate (g : GraphState) (p : GPerson) : Bool :=
  decide (1 ≤ personMemoryCount g p.id) &&
  (match p.last_routine_analysis, p.last_memory_saved with
   | none, _ => true
   | some a, some s => decide (a < s)
   | some _, none => false)

/-- The amended candidacy predicate: as the claim, plus the even
memory-count batching condition present in the worker query. -/
def amendedDirtyCandidate (g : GraphState) (p : GPerson) : Bool :=
  decide (1 ≤ personMemoryCount g p.id) &&
  decide (Even (personMemoryCount g p.id)) &&
  (match p.last_routine_analysis, p.last_memory_saved with
   | none, _ => true
   | some a, some s => decide (a < s)
   | some _, none => false)

/-- A candidate routine returned by the LLM extraction collaborator
(`extract_routines_from_memories`, treated as a pure function):
`text` and `confidence`. -/
structure ExtractedRoutine where
  text : String
  confidence : ℚ
deriving DecidableEq, Repr

/-- A stored routine, in the per-person view used by the consolidation
engine: text, confidence, source. -/
structure CRoutine where
  text : String
  confidence : ℚ
  source : String
deriving DecidableEq, Repr

/-- The per-person state touched by `analyze_and_update_routines`
(routine.py): the person record (`none` when `get_person` misses), the
person's memories most-recent first, and the current routine set. -/
structure ConsolidationState where
  person : Option GPerson
  memories : List GMemory
  routines : List CRoutine
deriving DecidableEq, Repr

/-- The routine set after one run of `analyze_and_update_routines`:
with zero memories, a non-empty contextual note yields one 0.6 routine
from the note and an empty/absent note writes nothing; with memories,
the extractor runs on the 50 most recent and, when it yields nothing,
the note fallback (0.5) applies if a note exists, otherwise the old set
is left untouched; extracted candidates replace the whole set verbatim
with source `"memories"`.  Every write path is
delete-all-then-insert-all. -/
def consolidatedRoutines (extract : List GMemory → List ExtractedRoutine)
    (noteTf : String → String) (person : GPerson) (memories : List GMemory)
    (old : List CRoutine) : List CRoutine :=
  if memories.length = 0 then
    if person.contextual_note.getD "" = "" then old
    else [{ text := noteTf (person.contextual_note.getD ""),
            confidence := 6 / 10, source := "contextual_note" }]
  else
    let extracted := extract (memories.take 50)
    if extracted = [] then
      if person.contextual_note.getD "" = "" then old
      else [{ text := noteTf (person.contextual_note.getD ""),
              confidence := 5 / 10, source := "contextual_note" }]
    else
      extracted.map (fun r =>
        { text := r.text, confidence := r.confidence, source := "memories" })

/-- `analyze_and_update_routines`: returns without writing when the
person record is missing; otherwise replaces the routine set as
`consolidatedRoutines` describes. -/
def analyzeAndUpdateRoutines (extract : List GMemory → List ExtractedRoutine)
    (noteTf : String → String) (s : ConsolidationState) : ConsolidationState :=
  match s.person with
  | none => s
  | some p =>
    let newSet := consolidatedRoutines extract noteTf p s.memories s.routines
    { s with routines := newSet }

/-- `graph_db.mark_routine_analysis_complete`: `MATCH (p:Person {id})
SET p.last_routine_analysis = datetime()` — a no-op when no person
record matches. -/
def markRoutineAnalysisComplete (now : Nat) (s : ConsolidationState) :
    ConsolidationState :=
  let marked := s.person.map (fun p => { p with last_routine_analysis := some now })
  { s with person := marked }

/-- One worker candidate iteration (routine_worker.py): run the
consolidation engine and, when it returns without raising, mark the
analysis complete. -/
def workerProcessCandidate (extract : List GMemory → List ExtractedRoutine)
    (noteTf : String → String) (now : Nat) (s : ConsolidationState) :
    ConsolidationState :=
  markRoutineAnalysisComplete now (analyzeAndUpdateRoutines extract noteTf s)

/-- A concrete confirmed person used in concrete test states. -/
def personX : GPerson :=
  { id := "pX", status := "confirmed", name := some "X",
    relation := some "friend", contextual_note := none,
    confirmed_at := some 1, last_memory_saved := none,
    last_routine_analysis := none }

/-- A graph store holding just `personX`. -/
def graphX : GraphState :=
  { persons := [personX], memories := [], routines := [],
    hasMemory := [], hasRoutine := [] }

/-- The spec's multi-frame scenario: three frames, only the second
yields a face, matching `personX` at similarity `0.91`. -/
def scenarioFrames : List (Option (List FaceHit)) :=
  [none, some [{ person_id := "pX", status := "confirmed", score := 91 / 100 }],
   none]

/-- A face hit whose similarity equals the default threshold exactly. -/
def boundaryHit : FaceHit :=
  { person_id := "pX", status := "confirmed", score := 8 / 10 }

/-- A temporary person with exactly one memory and no prior analysis. -/
def personOdd : GPerson :=
  { id := "p1", status := "temporary", name := none, relation := none,
    contextual_note := none, confirmed_at := none,
    last_memory_saved := some 5, last_routine_analysis := none }

/-- A graph store in which `personOdd` owns exactly one memory. -/
def graphOdd : GraphState :=
  { persons := [personOdd],
    memories := [{ id := "m1", person_id := "p1", summary := "s1" }],
    routines := [], hasMemory := [("p1", "m1")], hasRoutine := [] }

/-- A confirmed person owning one memory and one routine. -/
def personD : GPerson :=
  { id := "pD", status := "confirmed", name := some "D",
    relation := some "son", contextual_note := none, confirmed_at := some 1,
    last_memory_saved := none, last_routine_analysis := none }

/-- The routine record owned by `personD`. -/
def routineD : GRoutine :=
  { id := "r1", person_id := "pD", text := "t", confidence := 1,
    source := "memories" }

/-- A dual-store state holding `personD` with one memory, one routine,
one face point and one memory point. -/
def systemD : SystemState :=
  { graph := { persons := [personD],
               memories := [{ id := "mD", person_id := "pD",
                              summary := "sum" }],
               routines := [routineD],
               hasMemory := [("pD", "mD")], hasRoutine := [("pD", "r1")] },
    vector := { face := [{ id := "f1", person_id := "pD",
                           status := "confirmed" }],
                memory := [{ id := "mD", person_id := "pD" }] } }

/-- A temporary person awaiting confirmation. -/
def personT : GPerson :=
  { id := "pT", status := "temporary", name := none, relation := none,
    contextual_note := none, confirmed_at := none,
    last_memory_saved := none, last_routine_analysis := none }

/-- An already-confirmed person. -/
def personC : GPerson :=
  { id := "pC", status := "confirmed", name := some "C",
    relation := some "wife", contextual_note := none, confirmed_at := some 2,
    last_memory_saved := none, last_routine_analysis := none }

/-- A dual-store state with one temporary and one confirmed person; the
temporary person has one face point. -/
def systemConfirm : SystemState :=
  { graph := { persons := [personT, personC], memories := [], routines := [],
               hasMemory := [], hasRoutine := [] },
    vector := { face := [{ id := "f1", person_id := "pT",
                           status := "temporary" }], memory := [] } }

/-- A confirmed person with the contextual note "visits on weekends". -/
def personNote : GPerson :=
  { id := "pN", status := "confirmed", name := some "P",
    relation := some "friend",
    contextual_note := some "visits on weekends", confirmed_at := some 1,
    last_memory_saved := none, last_routine_analysis := none }

/-- A consolidation state for `personNote` with zero memories and a
pre-existing routine set. -/
def consolidDemo : ConsolidationState :=
  { person := some personNote, memories := [],
    routines := [{ text := "old", confidence := 1, source := "memories" }] }

/-- A confirmed person with no contextual note. -/
def personPlain : GPerson :=
  { id := "pQ", status := "confirmed", name := some "Q",
    relation := some "son", contextual_note := none, confirmed_at := some 1,
    last_memory_saved := some 3, last_routine_analysis := none }

/-- A consolidation state for `personPlain`: zero memories, no note,
one pre-existing routine. -/
def workerDemo : ConsolidationState :=
  { person := some personPlain, memories := [],
    routines := [{ text := "keep", confidence := 1, source := "memories" }] }

theorem updateFamiliarity_le_one (score inc : ℚ) :
    updateFamiliarity score inc ≤ 1 := by
  unfold updateFamiliarity
  split
  · exact le_refl 1
  · linarith [not_lt.mp (by assumption : ¬ 1 < score + inc)]

theorem iterateFamiliarity_le_one (inc : ℚ) (n : Nat) (score : ℚ)
    (h : score ≤ 1) : iterateFamiliarity inc n score ≤ 1 := by
  induction n generalizing score with
  | zero => exact h
  | succ k ih =>
    exact ih _ (updateFamiliarity_le_one score inc)

/-- **C9** — The familiarity score stays within `[0, 1]` and is
monotonically non-decreasing under `update_familiarity`; from any
current value in range, repeated increments never produce a value above
`1` (the Cypher `CASE` clamps at `1.0`). -/
theorem familiarity_clamped_monotone (score inc : ℚ)
    (h0 : 0 ≤ score) (h1 : score ≤ 1) (hinc : 0 ≤ inc) :
    score ≤ updateFamiliarity score inc ∧
    0 ≤ updateFamiliarity score inc ∧
    updateFamiliarity score inc ≤ 1 ∧
    ∀ n : Nat, iterateFamiliarity inc n score ≤ 1 := by
  refine ⟨?_, ?_, updateFamiliarity_le_one score inc, ?_⟩
  · unfold updateFamiliarity
    split
    · exact h1
    · linarith
  · unfold updateFamiliarity
    split
    · norm_num
    · linarith
  · intro n
    exact iterateFamiliarity_le_one inc n score h1

/-- Witness for C9 at score `1/2`, the default increment `0.05`, and
three repeated increments. -/
theorem familiarity_clamped_monotone_witness :
    (1 / 2 : ℚ) ≤ updateFamiliarity (1 / 2) (1 / 20) ∧
    0 ≤ updateFamiliarity (1 / 2) (1 / 20) ∧
    updateFamiliarity (1 / 2) (1 / 20) ≤ 1 ∧
    ∀ n : Nat, iterateFamiliarity (1 / 20) n (1 / 2) ≤ 1 :=
  familiarity_clamped_monotone (1 / 2) (1 / 20)
    (by norm_num) (by norm_num) (by norm_num)

/-- **C8** — Operations wrapped by `retry_on_connection_error` retry
transient connectivity errors up to 3 attempts: a `get_person` call that
fails transiently on the first two attempts and succeeds on the third
returns successfully with no error surfaced; the last transient error is
surfaced only when all three attempts fail transiently. -/
theorem retry_transient_then_success
    (f : Nat → OpOutcome (Option GPerson)) (v : Option GPerson)
    (e0 e1 : Nat)
    (h0 : f 0 = .transient e0) (h1 : f 1 = .transient e1)
    (h2 : f 2 = .ok v) :
    getPersonWithRetry f = .ok v ∧
    ∀ (g : Nat → OpOutcome (Option GPerson)) (d0 d1 d2 : Nat),
      g 0 = .transient d0 → g 1 = .transient d1 → g 2 = .transient d2 →
      getPersonWithRetry g = .transient d2 := by
  constructor
  · unfold getPersonWithRetry retryOnConnectionError
    unfold retryAttempts
    rw [h0]
    simp only [show (0 + 1 < 3) = True by simp, dite_true]
    unfold retryAttempts
    rw [h1]
    simp only [show (1 + 1 < 3) = True by simp, dite_true]
    unfold retryAttempts
    rw [h2]
  · intro g d0 d1 d2 hg0 hg1 hg2
    unfold getPersonWithRetry retryOnConnectionError
    unfold retryAttempts
    rw [hg0]
    simp only [show (0 + 1 < 3) = True by simp, dite_true]
    unfold retryAttempts
    rw [hg1]
    simp only [show (1 + 1 < 3) = True by simp, dite_true]
    unfold retryAttempts
    rw [hg2]
    simp

/-- Witness for C8: a concrete attempt trace that fails transiently
twice and succeeds on the third attempt. -/
theorem retry_transient_then_success_witness :
    getPersonWithRetry
      (fun n => if n = 0 then .transient 7 else
                if n = 1 then .transient 8 else .ok none) = .ok none ∧
    ∀ (g : Nat → OpOutcome (Option GPerson)) (d0 d1 d2 : Nat),
      g 0 = .transient d0 → g 1 = .transient d1 → g 2 = .transient d2 →
      getPersonWithRetry g = .transient d2 :=
  retry_transient_then_success
    (fun n => if n = 0 then .transient 7 else
              if n = 1 then .transient 8 else .ok none)
    none 7 8 rfl rfl rfl

theorem recogStep_inv (g : GraphState) (seen : List FaceHit) (acc : RecogAcc)
    (cand : Option FaceHit)
    (hres : ∀ m : FaceHit, cand = some m → m.status = "confirmed" →
      (getPerson g m.person_id).isSome)
    (h : RecogInv g seen acc) :
    RecogInv g (seen ++ cand.toList) (recogStep g acc cand) := by
  cases cand with
  | none => simpa [recogStep] using h
  | some m =>
    simp only [Option.toList]
    by_cases hst : m.status = "confirmed"
    · have hfilter : (seen ++ [m]).filter (fun c => c.status = "confirmed")
          = seen.filter (fun c => c.status = "confirmed") ++ [m] := by
        simp [List.filter_append, hst]
      by_cases hgt : acc.best_confidence < m.score
      · have hsome := hres m rfl hst
        obtain ⟨p, hp⟩ := Option.isSome_iff_exists.mp hsome
        have hR : recogStep g acc (some m) =
            { best_match := some m, best_confidence := m.score,
              best_person := some p } := by
          simp [recogStep, hst, hgt, hp]
        rw [hR]
        constructor
        · intro hnone; simp at hnone
        · intro m' hm'
          obtain rfl := Option.some.inj hm'
          refine ⟨hst, rfl, ?_, ⟨p, hp, rfl⟩, ?_, ?_⟩
          · cases hbm : acc.best_match with
            | none =>
              obtain ⟨hbc0, _, _⟩ := h.1 hbm
              rw [hbc0] at hgt
              exact hgt
            | some b =>
              obtain ⟨_, hbcb, hbpos, _, _, _⟩ := h.2 b hbm
              rw [hbcb] at hgt
              exact lt_trans hbpos hgt
          · rw [hfilter]
            intro c hc
            rcases List.mem_append.mp hc with hc | hc
            · cases hbm : acc.best_match with
              | none =>
                obtain ⟨hbc0, _, hseen⟩ := h.1 hbm
                rw [hbc0] at hgt
                exact le_of_lt (lt_of_le_of_lt (hseen c hc) hgt)
              | some b =>
                obtain ⟨_, hbcb, _, _, hmax, _⟩ := h.2 b hbm
                rw [hbcb] at hgt
                exact le_of_lt (lt_of_le_of_lt (hmax c hc) hgt)
            · simp at hc; subst hc; exact le_refl _
          · refine ⟨seen.filter (fun c => c.status = "confirmed"), [],
              by rw [hfilter], ?_⟩
            intro c hc
            cases hbm : acc.best_match with
            | none =>
              obtain ⟨hbc0, _, hseen⟩ := h.1 hbm
              rw [hbc0] at hgt
              exact lt_of_le_of_lt (hseen c hc) hgt
            | some b =>
              obtain ⟨_, hbcb, _, _, hmax, _⟩ := h.2 b hbm
              rw [hbcb] at hgt
              exact lt_of_le_of_lt (hmax c hc) hgt
      · have hR : recogStep g acc (some m) = acc := by
          simp [recogStep, hst, hgt]
        rw [hR]
        constructor
        · intro hnone
          obtain ⟨hbc0, hbp, hseen⟩ := h.1 hnone
          refine ⟨hbc0, hbp, ?_⟩
          rw [hfilter]
          intro c hc
          rcases List.mem_append.mp hc with hc | hc
          · exact hseen c hc
          · simp at hc; subst hc
            exact le_of_not_lt (hbc0 ▸ hgt)
        · intro b hb
          obtain ⟨hbst, hbcb, hbpos, hp, hmax, l1, l2, hdec, hl1⟩ := h.2 b hb
          refine ⟨hbst, hbcb, hbpos, hp, ?_, l1, l2 ++ [m], ?_, hl1⟩
          · rw [hfilter]
            intro c hc
            rcases List.mem_append.mp hc with hc | hc
            · exact hmax c hc
            · simp at hc; subst hc
              exact le_of_not_lt (hbcb ▸ hgt)
          · rw [hfilter, hdec]
            simp
    · have hR : recogStep g acc (some m) = acc := by
        simp [recogStep, hst]
      have hfilter : (seen ++ [m]).filter (fun c => c.status = "confirmed")
          = seen.filter (fun c => c.status = "confirmed") := by
        simp [List.filter_append, hst]
      rw [hR]
      constructor
      · intro hnone
        obtain ⟨a, b, c⟩ := h.1 hnone
        exact ⟨a, b, by rw [hfilter]; exact c⟩
      · intro b hb
        obtain ⟨h1, h2, h3, h4, h5, l1, l2, hdec, hl1⟩ := h.2 b hb
        exact ⟨h1, h2, h3, h4, by rw [hfilter]; exact h5, l1, l2,
          by rw [hfilter]; exact hdec, hl1⟩

theorem recogFold_inv (g : GraphState) (cands : List (Option FaceHit)) :
    ∀ (seen : List FaceHit) (acc : RecogAcc),
      (∀ m : FaceHit, some m ∈ cands → m.status = "confirmed" →
        (getPerson g m.person_id).isSome) →
      RecogInv g seen acc →
      RecogInv g (seen ++ cands.filterMap id)
        (cands.foldl (recogStep g) acc) := by
  induction cands with
  | nil => intro seen acc _ h; simpa using h
  | cons c rest ih =>
    intro seen acc hres h
    have hstep := recogStep_inv g seen acc c
      (fun m hm hst => hres m (by rw [hm]; exact List.mem_cons_self _ _) hst) h
    have hrest := ih (seen ++ c.toList) (recogStep g acc c)
      (fun m hm hst => hres m (List.mem_cons_of_mem _ hm) hst) hstep
    cases c with
    | none => simpa using hrest
    | some m => simpa [List.append_assoc] using hrest

theorem recognizeFace_inv (g : GraphState) (thr : ℚ)
    (frames : List (Option (List FaceHit)))
    (hres : ∀ m ∈ frameCandidates thr frames, m.status = "confirmed" →
      (getPerson g m.person_id).isSome) :
    RecogInv g (frameCandidates thr frames) (recognizeFace g thr frames) := by
  have hinit : RecogInv g []
      { best_match := none, best_confidence := 0, best_person := none } := by
    constructor
    · intro _; exact ⟨rfl, rfl, by intro c hc; simp at hc⟩
    · intro m hm; simp at hm
  have := recogFold_inv g (frames.map (frameCandidate thr)) []
    { best_match := none, best_confidence := 0, best_person := none }
    (fun m hm hst => hres m (by
      unfold frameCandidates
      exact List.mem_filterMap.mpr ⟨some m, hm, rfl⟩) hst) hinit
  simpa [recognizeFace, frameCandidates] using this

theorem recogStep_best_source (g : GraphState) (acc : RecogAcc)
    (cand : Option FaceHit) (m : FaceHit)
    (h : (recogStep g acc cand).best_match = some m) :
    acc.best_match = some m ∨ cand = some m := by
  cases cand with
  | none => exact Or.inl h
  | some c =>
    by_cases hst : c.status = "confirmed"
    · by_cases hgt : acc.best_confidence < c.score
      · cases hp : getPerson g c.person_id with
        | none => simp [recogStep, hst, hgt, hp] at h; exact Or.inl h
        | some p =>
          simp [recogStep, hst, hgt, hp] at h
          exact Or.inr (by rw [h])
      · simp [recogStep, hst, hgt] at h; exact Or.inl h
    · simp [recogStep, hst] at h; exact Or.inl h

theorem recogFold_best_source (g : GraphState) (cands : List (Option FaceHit)) :
    ∀ (acc : RecogAcc) (m : FaceHit),
      (cands.foldl (recogStep g) acc).best_match = some m →
      acc.best_match = some m ∨ some m ∈ cands := by
  induction cands with
  | nil => intro acc m h; exact Or.inl h
  | cons c rest ih =>
    intro acc m h
    rcases ih (recogStep g acc c) m h with hacc | hmem
    · rcases recogStep_best_source g acc c m hacc with h1 | h2
      · exact Or.inl h1
      · exact Or.inr (by rw [h2]; exact List.mem_cons_self _ _)
    · exact Or.inr (List.mem_cons_of_mem _ hmem)

theorem recogFold_all_none (g : GraphState) (cands : List (Option FaceHit))
    (h : ∀ x ∈ cands, x = none) :
    ∀ acc : RecogAcc, cands.foldl (recogStep g) acc = acc := by
  induction cands with
  | nil => intro acc; rfl
  | cons c rest ih =>
    intro acc
    have hc : c = none := h c (List.mem_cons_self _ _)
    subst hc
    exact ih (fun x hx => h x (List.mem_cons_of_mem _ hx)) acc

theorem frameCandidate_threshold (thr : ℚ) (fr : Option (List FaceHit))
    (m : FaceHit) (h : frameCandidate thr fr = some m) : thr ≤ m.score := by
  cases fr with
  | none => simp [frameCandidate] at h
  | some results =>
    simp only [frameCandidate] at h
    unfold searchFace at h
    cases hl : (results.filter (fun r => thr ≤ r.score)).take 1 with
    | nil => rw [hl] at h; simp at h
    | cons a t =>
      rw [hl] at h
      simp only [List.map_cons, List.head?_cons, Option.some.injEq] at h
      have ha : a ∈ results.filter (fun r => thr ≤ r.score) :=
        List.mem_of_mem_take (hl ▸ List.mem_cons_self a t)
      have := (List.mem_filter.mp ha).2
      have hsc : thr ≤ a.score := by simpa using this
      rw [← h]
      exact hsc

/-- **C1** — For every frame batch, the recognition result, if matched,
is the candidate with the single highest similarity score among all
per-frame candidates whose stored status is CONFIRMED: the whole batch
is folded before the decision, ties are broken by first-seen frame
order (every earlier confirmed candidate scores strictly lower), and if
no frame yields a CONFIRMED candidate the result is "not recognized"
regardless of TEMPORARY-candidate scores.  (The graph store is assumed
consistent with the vector index: every confirmed candidate's person id
resolves.) -/
theorem recognize_best_confirmed (g : GraphState) (thr : ℚ)
    (frames : List (Option (List FaceHit)))
    (hres : ∀ m ∈ frameCandidates thr frames, m.status = "confirmed" →
      (getPerson g m.person_id).isSome) :
    (∀ m, (recognizeFace g thr frames).best_match = some m →
      m.status = "confirmed" ∧
      (∀ c ∈ confirmedCandidates thr frames, c.score ≤ m.score) ∧
      (∃ l1 l2, confirmedCandidates thr frames = l1 ++ m :: l2 ∧
        ∀ c ∈ l1, c.score < m.score) ∧
      (recognizeResponse g thr frames).recognized = true ∧
      (recognizeResponse g thr frames).person_id = m.person_id) ∧
    (confirmedCandidates thr frames = [] →
      (recognizeFace g thr frames).best_match = none ∧
      (recognizeResponse g thr frames).recognized = false) := by
  have h := recognizeFace_inv g thr frames hres
  constructor
  · intro m hm
    obtain ⟨hst, _, _, ⟨p, _, hbp⟩, hmax, l1, l2, hdec, hl1⟩ := h.2 m hm
    refine ⟨hst, ?_, ⟨l1, l2, ?_, hl1⟩, ?_, ?_⟩
    · intro c hc
      exact hmax c (by simpa [confirmedCandidates] using hc)
    · simpa [confirmedCandidates] using hdec
    · simp [recognizeResponse, hm, hbp]
    · simp [recognizeResponse, hm, hbp]
  · intro hempty
    cases hbm : (recognizeFace g thr frames).best_match with
    | none => exact ⟨rfl, by simp [recognizeResponse, hbm]⟩
    | some m =>
      exfalso
      obtain ⟨_, _, _, _, _, l1, l2, hdec, _⟩ := h.2 m hbm
      have : confirmedCandidates thr frames = l1 ++ m :: l2 := by
        simpa [confirmedCandidates] using hdec
      rw [hempty] at this
      exact List.not_mem_nil m (this ▸ List.mem_append_right l1
        (List.mem_cons_self m l2))

/-- Witness for C1: the spec's three-frame scenario — only frame 2
yields a face, matching the confirmed `personX` at score `0.91`;
the result is recognized as `personX`. -/
theorem recognize_best_confirmed_witness :
    (recognizeResponse graphX FACE_SIMILARITY_THRESHOLD
       scenarioFrames).recognized = true ∧
    (recognizeResponse graphX FACE_SIMILARITY_THRESHOLD
       scenarioFrames).person_id = "pX" := by
  have hcands : frameCandidates FACE_SIMILARITY_THRESHOLD scenarioFrames =
      [{ person_id := "pX", status := "confirmed", score := 91 / 100 }] := by
    norm_num [frameCandidates, frameCandidate, searchFace, scenarioFrames,
      FACE_SIMILARITY_THRESHOLD, List.filterMap_cons]
  have h := recognize_best_confirmed graphX FACE_SIMILARITY_THRESHOLD
    scenarioFrames (by
      rw [hcands]
      intro m hm _
      rw [List.mem_singleton] at hm
      subst hm
      norm_num [getPerson, graphX, personX])
  have hb : (recognizeFace graphX FACE_SIMILARITY_THRESHOLD
      scenarioFrames).best_match =
      some { person_id := "pX", status := "confirmed", score := 91 / 100 } := by
    norm_num [recognizeFace, frameCandidate, searchFace, recogStep,
      getPerson, graphX, personX, scenarioFrames, FACE_SIMILARITY_THRESHOLD]
  obtain ⟨-, -, -, hrec, hpid⟩ := h.1 _ hb
  exact ⟨hrec, hpid⟩

/-- Counterexample to **C4** as stated: acceptance does not require the
score to strictly exceed the threshold — `search_face` filters with
`score >= threshold`, so a candidate whose similarity equals the
configured threshold exactly (here the default `0.8`) is accepted. -/
theorem strict_threshold_counterexample :
    ¬ (∀ (g : GraphState) (thr : ℚ) (frames : List (Option (List FaceHit)))
        (m : FaceHit),
        (recognizeFace g thr frames).best_match = some m → thr < m.score) := by
  intro hclaim
  have hb : (recognizeFace graphX FACE_SIMILARITY_THRESHOLD
      [some [boundaryHit]]).best_match = some boundaryHit := by
    norm_num [recognizeFace, frameCandidate, searchFace, recogStep,
      getPerson, graphX, personX, boundaryHit, FACE_SIMILARITY_THRESHOLD]
  have := hclaim _ _ _ _ hb
  rw [show boundaryHit.score = 8 / 10 from rfl] at this
  rw [show FACE_SIMILARITY_THRESHOLD = 8 / 10 from rfl] at this
  exact absurd this (by norm_num)

/-- **C4 (amended)** — A candidate is accepted only if its similarity
score meets or exceeds (`>=`) the configured minimum threshold (default
0.8); for every frame batch in which no raw search result from any
frame reaches the threshold, the result is "not recognized". -/
theorem recognize_threshold_amended (g : GraphState) (thr : ℚ)
    (frames : List (Option (List FaceHit))) :
    (∀ m, (recognizeFace g thr frames).best_match = some m →
      thr ≤ m.score) ∧
    ((∀ fr ∈ frames, ∀ res, fr = some res → ∀ r ∈ res, r.score < thr) →
      (recognizeFace g thr frames).best_match = none ∧
      (recognizeResponse g thr frames).recognized = false) := by
  constructor
  · intro m hm
    have := recogFold_best_source g (frames.map (frameCandidate thr))
      { best_match := none, best_confidence := 0, best_person := none } m
      (by simpa [recognizeFace] using hm)
    rcases this with habs | hmem
    · simp at habs
    · obtain ⟨fr, _, hfr⟩ := List.mem_map.mp hmem
      exact frameCandidate_threshold thr fr m hfr
  · intro hbelow
    have hnone : ∀ x ∈ frames.map (frameCandidate thr), x = none := by
      intro x hx
      obtain ⟨fr, hfrmem, hfr⟩ := List.mem_map.mp hx
      subst hfr
      cases fr with
      | none => rfl
      | some res =>
        simp only [frameCandidate]
        unfold searchFace
        have : res.filter (fun r => thr ≤ r.score) = [] := by
          rw [List.filter_eq_nil_iff]
          intro r hr
          simp only [decide_eq_true_eq]
          exact not_le.mpr (hbelow (some res) hfrmem res rfl r hr)
        rw [this]
        rfl
    have hfold := recogFold_all_none g (frames.map (frameCandidate thr)) hnone
      { best_match := none, best_confidence := 0, best_person := none }
    have hface : recognizeFace g thr frames =
        { best_match := none, best_confidence := 0, best_person := none } := by
      simpa [recognizeFace] using hfold
    exact ⟨by rw [hface], by simp [recognizeResponse, hface]⟩

/-- Witness for C4 (amended): a batch whose single raw search result
scores `0.5`, below the default threshold `0.8`, is not recognized. -/
theorem recognize_threshold_amended_witness :
    (recognizeFace graphX FACE_SIMILARITY_THRESHOLD
      [some [{ person_id := "pX", status := "confirmed",
               score := 1 / 2 }]]).best_match = none ∧
    (recognizeResponse graphX FACE_SIMILARITY_THRESHOLD
      [some [{ person_id := "pX", status := "confirmed",
               score := 1 / 2 }]]).recognized = false :=
  (recognize_threshold_amended graphX FACE_SIMILARITY_THRESHOLD
    [some [{ person_id := "pX", status := "confirmed", score := 1 / 2 }]]).2
    (by
      intro fr hfr res hrs r hr
      rw [List.mem_singleton] at hfr
      subst hfr
      obtain rfl := Option.some.inj hrs
      rw [List.mem_singleton] at hr
      subst hr
      norm_num [FACE_SIMILARITY_THRESHOLD])

/-- Counterexample to **C2** as stated: candidacy is *not* exactly the
"has a memory and timestamp-dirty" predicate — a person with exactly
one memory and no prior analysis satisfies the claimed predicate but is
not selected, because the worker query additionally requires an even
memory count (`memory_count % 2 = 0`). -/
theorem scheduler_candidacy_counterexample :
    ¬ (∀ g : GraphState, getPeopleNeedingRoutineAnalysis g =
        (g.persons.filter (specDirtyCandidate g)).take 10) := by
  intro hclaim
  have h := hclaim graphOdd
  have h1 : getPeopleNeedingRoutineAnalysis graphOdd = [] := by decide
  have h2 : (graphOdd.persons.filter (specDirtyCandidate graphOdd)).take 10 =
      [personOdd] := by decide
  rw [h1, h2] at h
  exact List.cons_ne_nil personOdd [] h.symm

/-- **C2 (amended)** — Each scheduler cycle selects as candidates
exactly the persons with at least one memory, an even memory count, and
a last-routine-analysis timestamp that is unset or older than their
last-memory-save timestamp, capped to 10 before batch-size truncation. -/
theorem scheduler_candidacy_amended (g : GraphState) :
    getPeopleNeedingRoutineAnalysis g =
      (g.persons.filter (amendedDirtyCandidate g)).take 10 := by
  unfold getPeopleNeedingRoutineAnalysis
  congr 1
  apply List.filter_congr
  intro p _
  unfold needsRoutineAnalysis amendedDirtyCandidate
  have h1 : decide (0 < personMemoryCount g p.id) =
      decide (1 ≤ personMemoryCount g p.id) :=
    decide_eq_decide.mpr (by omega)
  have h2 : decide (personMemoryCount g p.id % 2 = 0) =
      decide (Even (personMemoryCount g p.id)) :=
    decide_eq_decide.mpr (Nat.even_iff).symm
  rw [h1, h2]

/-- **C3** (code-bug evidence) — Deleting `personD` removes the person
record, the memory records, and every vector point tagged `"pD"` in
both collections, but the Routine record owned by `personD` survives in
the entity store (only its HAS_ROUTINE edge is removed):
`graph_db.delete_person` DETACH-DELETEs only the person and its
HAS_MEMORY-matched memories, never the Routine nodes. -/
theorem delete_person_leaves_routine_record :
    routerDeletePerson systemD "pD" =
      .ok { graph := { persons := [], memories := [], routines := [routineD],
                       hasMemory := [], hasRoutine := [] },
            vector := { face := [], memory := [] } } ∧
    routineD.person_id = "pD" :=
  ⟨rfl, rfl⟩

/-- **C5** — `confirm_person` errors with 404 (not-found) when the
person does not exist and with 400 (invalid-state) when the person is
already CONFIRMED — it never silently succeeds on an already-confirmed
person; on success the Entity Store update precedes the Vector Index
status update (trace order), the person record ends up confirmed with
the supplied name and relation, and every face point of the person is
marked confirmed. -/
theorem confirm_person_spec (st : SystemState) (pid name relation : String)
    (now : Nat) :
    (getPerson st.graph pid = none →
      confirmPerson st pid name relation now = .error 404) ∧
    (∀ p, getPerson st.graph pid = some p → p.status = "confirmed" →
      confirmPerson st pid name relation now = .error 400) ∧
    (∀ out, confirmPerson st pid name relation now = .ok out →
      out.2 = [.graphUpdate pid, .vectorStatusUpdate pid "confirmed"] ∧
      (∀ q ∈ out.1.graph.persons, q.id = pid →
        q.status = "confirmed" ∧ q.name = some name ∧
        q.relation = some relation ∧ q.confirmed_at = some now) ∧
      (∀ fp ∈ out.1.vector.face, fp.person_id = pid →
        fp.status = "confirmed")) := by
  refine ⟨?_, ?_, ?_⟩
  · intro hnone
    simp [confirmPerson, hnone]
  · intro p hp hst
    simp [confirmPerson, hp, hst]
  · intro out hout
    cases hp : getPerson st.graph pid with
    | none => simp [confirmPerson, hp] at hout
    | some p =>
      by_cases hst : p.status = "confirmed"
      · simp [confirmPerson, hp, hst] at hout
      · simp only [confirmPerson, hp, hst, if_false] at hout
        obtain rfl := (Except.ok.inj hout).symm
        refine ⟨rfl, ?_, ?_⟩
        · intro q hq hqid
          simp only [updatePerson, mapPerson, List.map_map] at hq
          obtain ⟨q0, _, rfl⟩ := List.mem_map.mp hq
          by_cases hq0 : q0.id = pid
          · simp [Function.comp, hq0]
          · exfalso
            simp [Function.comp, hq0] at hqid
        · intro fp hfp hfpid
          simp only [updatePersonStatus] at hfp
          obtain ⟨fp0, _, rfl⟩ := List.mem_map.mp hfp
          by_cases hfp0 : fp0.person_id = pid
          · simp [hfp0]
          · exfalso
            simp [hfp0] at hfpid

/-- Witness for C5: in a concrete two-person store, confirming a missing
id gives 404, confirming the already-confirmed `personC` gives 400, and
confirming the temporary `personT` performs the graph update before the
vector status update. -/
theorem confirm_person_spec_witness :
    confirmPerson systemConfirm "nobody" "Nina" "friend" 9 = .error 404 ∧
    confirmPerson systemConfirm "pC" "Nina" "friend" 9 = .error 400 ∧
    (confirmPerson systemConfirm "pT" "Nina" "friend" 9).map
        (fun out => out.2) =
      .ok [.graphUpdate "pT", .vectorStatusUpdate "pT" "confirmed"] :=
  ⟨(confirm_person_spec systemConfirm "nobody" "Nina" "friend" 9).1 rfl,
   (confirm_person_spec systemConfirm "pC" "Nina" "friend" 9).2.1
     personC rfl rfl,
   rfl⟩

theorem consolidatedRoutines_idem
    (extract : List GMemory → List ExtractedRoutine)
    (noteTf : String → String) (p : GPerson) (memories : List GMemory)
    (old : List CRoutine) :
    consolidatedRoutines extract noteTf p memories
        (consolidatedRoutines extract noteTf p memories old) =
      consolidatedRoutines extract noteTf p memories old := by
  unfold consolidatedRoutines
  by_cases h1 : memories.length = 0 <;> simp only [h1, if_true, if_false]
  · by_cases h2 : p.contextual_note.getD "" = "" <;>
      simp only [h2, if_true, if_false]
  · by_cases h3 : extract (memories.take 50) = [] <;>
      simp only [h3, if_true, if_false]
    · by_cases h2 : p.contextual_note.getD "" = "" <;>
        simp only [h2, if_true, if_false]

theorem analyzeAndUpdateRoutines_idem
    (extract : List GMemory → List ExtractedRoutine)
    (noteTf : String → String) (s : ConsolidationState) :
    analyzeAndUpdateRoutines extract noteTf
        (analyzeAndUpdateRoutines extract noteTf s) =
      analyzeAndUpdateRoutines extract noteTf s := by
  cases hp : s.person with
  | none => simp [analyzeAndUpdateRoutines, hp]
  | some p => simp [analyzeAndUpdateRoutines, hp, consolidatedRoutines_idem]

/-- **C6** — With the text-generation collaborator fixed as a pure
function, running consolidation twice consecutively on a person whose
memory set has not changed leaves the routine set's cardinality and
sources (indeed the whole routine set) unchanged from the first run. -/
theorem consolidate_idempotent
    (extract : List GMemory → List ExtractedRoutine)
    (noteTf : String → String) (s : ConsolidationState) :
    (analyzeAndUpdateRoutines extract noteTf
        (analyzeAndUpdateRoutines extract noteTf s)).routines.length =
      (analyzeAndUpdateRoutines extract noteTf s).routines.length ∧
    (analyzeAndUpdateRoutines extract noteTf
        (analyzeAndUpdateRoutines extract noteTf s)).routines.map
          (fun r => r.source) =
      (analyzeAndUpdateRoutines extract noteTf s).routines.map
        (fun r => r.source) ∧
    (analyzeAndUpdateRoutines extract noteTf s).memories = s.memories := by
  rw [analyzeAndUpdateRoutines_idem]
  refine ⟨rfl, rfl, ?_⟩
  cases hp : s.person <;> simp [analyzeAndUpdateRoutines, hp]

/-- **C7** — For every person with zero memories: a non-empty contextual
note makes consolidation replace the routine set with exactly one
routine of confidence 0.6 and source `"contextual_note"` derived from
the note; with no note, consolidation performs no write at all. -/
theorem consolidate_zero_memories
    (extract : List GMemory → List ExtractedRoutine)
    (noteTf : String → String) (s : ConsolidationState) (p : GPerson)
    (hp : s.person = some p) (hm : s.memories = []) :
    (p.contextual_note.getD "" ≠ "" →
      (analyzeAndUpdateRoutines extract noteTf s).routines =
        [{ text := noteTf (p.contextual_note.getD ""), confidence := 6 / 10,
           source := "contextual_note" }]) ∧
    (p.contextual_note.getD "" = "" →
      analyzeAndUpdateRoutines extract noteTf s = s) := by
  obtain ⟨per, mems, routs⟩ := s
  dsimp only at hp hm
  subst hp
  subst hm
  constructor <;> intro hnote <;>
    simp [analyzeAndUpdateRoutines, consolidatedRoutines, hnote]

/-- Witness for C7: the spec scenario — `personNote` (note "visits on
weekends") with zero memories ends up with exactly one 0.6
contextual-note routine replacing the previous set. -/
theorem consolidate_zero_memories_witness :
    (analyzeAndUpdateRoutines (fun _ => []) (fun n => n)
        consolidDemo).routines =
      [{ text := "visits on weekends", confidence := 6 / 10,
         source := "contextual_note" }] :=
  (consolidate_zero_memories (fun _ => []) (fun n => n) consolidDemo
    personNote rfl rfl).1 (by simp [personNote])

/-- **C10** — Whenever a scheduler-cycle consolidation attempt returns
without raising, the worker marks the person's last routine-analysis
timestamp, including on the write-free paths (person record missing;
zero memories and no contextual note; memories but no extracted
candidates and no note): the routine set is untouched, yet any existing
person record gets `last_routine_analysis` set. -/
theorem worker_marks_after_no_write
    (extract : List GMemory → List ExtractedRoutine)
    (noteTf : String → String) (now : Nat) (s : ConsolidationState)
    (hcase : s.person = none
      ∨ (∃ p, s.person = some p ∧ s.memories = [] ∧
          p.contextual_note.getD "" = "")
      ∨ (∃ p, s.person = some p ∧ s.memories ≠ [] ∧
          extract (s.memories.take 50) = [] ∧
          p.contextual_note.getD "" = "")) :
    (workerProcessCandidate extract noteTf now s).routines = s.routines ∧
    ∀ p, s.person = some p →
      (workerProcessCandidate extract noteTf now s).person =
        some { p with last_routine_analysis := some now } := by
  rcases hcase with hnone | ⟨p, hp, hm, hnote⟩ | ⟨p, hp, hm, hext, hnote⟩
  · constructor
    · simp [workerProcessCandidate, analyzeAndUpdateRoutines,
        markRoutineAnalysisComplete, hnone]
    · intro q hq
      rw [hnone] at hq
      exact absurd hq (by simp)
  · constructor
    · simp [workerProcessCandidate, analyzeAndUpdateRoutines,
        markRoutineAnalysisComplete, hp, consolidatedRoutines, hm, hnote]
    · intro q hq
      rw [hp] at hq
      obtain rfl := Option.some.inj hq
      simp [workerProcessCandidate, analyzeAndUpdateRoutines,
        markRoutineAnalysisComplete, hp, consolidatedRoutines, hm, hnote]
  · have hlen : ¬ s.memories.length = 0 := by
      simpa [List.length_eq_zero] using hm
    constructor
    · simp [workerProcessCandidate, analyzeAndUpdateRoutines,
        markRoutineAnalysisComplete, hp, consolidatedRoutines, hlen, hext,
        hnote]
    · intro q hq
      rw [hp] at hq
      obtain rfl := Option.some.inj hq
      simp [workerProcessCandidate, analyzeAndUpdateRoutines,
        markRoutineAnalysisComplete, hp, consolidatedRoutines, hlen, hext,
        hnote]

/-- Witness for C10: `personPlain` (no note) with zero memories — the
worker leaves the routine set untouched but still marks the analysis
timestamp. -/
theorem worker_marks_after_no_write_witness :
    (workerProcessCandidate (fun _ => []) (fun n => n) 7
        workerDemo).routines = workerDemo.routines ∧
    (workerProcessCandidate (fun _ => []) (fun n => n) 7
        workerDemo).person =
      some { personPlain with last_routine_analysis := some 7 } :=
  have h := worker_marks_after_no_write (fun _ => []) (fun n => n) 7
    workerDemo (Or.inr (Or.inl ⟨personPlain, rfl, rfl, rfl⟩))
  ⟨h.1, h.2 personPlain rfl⟩
